import Mathlib

/-!
Verification of the Boids flocking simulation core (`src/Boids.py`).

The simulation state and the per-frame algorithm are embedded shallowly:
2D float vectors become pairs of real numbers, the `Boid` class becomes a
structure, and the mutating methods (`update`, `handle_boundaries`,
`flock`, `apply_force`) become functions from the old state to the new
state.  Python object identity inside the flock list is modelled by list
indices: `boid.flock(boids)` skips `other is self`, which for the main
loop's list (whose elements are pairwise distinct objects) is exactly an
index comparison.
-/

namespace Boids

noncomputable section

/-- 2D vector, the embedding of the `np.array([x, y])` values. -/
structure Vec where
  x : ℝ
  y : ℝ

instance : Add Vec := ⟨fun a b => ⟨a.x + b.x, a.y + b.y⟩⟩

instance : Sub Vec := ⟨fun a b => ⟨a.x - b.x, a.y - b.y⟩⟩

instance : HMul Vec ℝ Vec := ⟨fun a c => ⟨a.x * c, a.y * c⟩⟩

instance : HDiv Vec ℝ Vec := ⟨fun a c => ⟨a.x / c, a.y / c⟩⟩

instance : SMul ℝ Vec := ⟨fun c a => ⟨c * a.x, c * a.y⟩⟩

/-- The zero vector `np.array([0.0, 0.0])`. -/
def Vec.zero : Vec := ⟨0, 0⟩

/-- `np.linalg.norm`: the Euclidean magnitude. -/
def Vec.norm (a : Vec) : ℝ := Real.sqrt (a.x ^ 2 + a.y ^ 2)

@[simp] theorem Vec.add_mk (a b c d : ℝ) :
    (Vec.mk a b) + (Vec.mk c d) = ⟨a + c, b + d⟩ := rfl

@[simp] theorem Vec.sub_mk (a b c d : ℝ) :
    (Vec.mk a b) - (Vec.mk c d) = ⟨a - c, b - d⟩ := rfl

@[simp] theorem Vec.mul_mk (a b c : ℝ) :
    (Vec.mk a b) * c = ⟨a * c, b * c⟩ := rfl

@[simp] theorem Vec.div_mk (a b c : ℝ) :
    (Vec.mk a b) / c = ⟨a / c, b / c⟩ := rfl

@[simp] theorem Vec.smul_mk (c a b : ℝ) :
    c • (Vec.mk a b) = ⟨c * a, c * b⟩ := rfl

theorem Vec.norm_mk_x0 (x : ℝ) : Vec.norm ⟨x, 0⟩ = |x| := by
  simp [Vec.norm, Real.sqrt_sq_eq_abs]

/-- Screen width (`WIDTH = 1200`). -/
def WIDTH : ℝ := 1200

/-- Screen height (`HEIGHT = 800`). -/
def HEIGHT : ℝ := 800

/-- The Boids parameter dictionary `params`. -/
structure Params where
  max_speed : ℝ
  perception_radius : ℝ
  separation_weight : ℝ
  alignment_weight : ℝ
  cohesion_weight : ℝ
  edge_force : ℝ
  separation_radius : ℝ

/-- The default parameter values from the `params` dictionary literal. -/
def defaultParams : Params :=
  { max_speed := 4.0
    perception_radius := 32
    separation_weight := 3.0
    alignment_weight := 2.3
    cohesion_weight := 1.73
    edge_force := 7.25
    separation_radius := 30 }

/-- State of one `Boid` object.  `neighbors` stores the indices (object
identities) of the neighbors found by the latest `flock` call. -/
structure Boid where
  position : Vec
  velocity : Vec
  acceleration : Vec
  neighbors : List ℕ

instance : Inhabited Boid := ⟨⟨Vec.zero, Vec.zero, Vec.zero, []⟩⟩

/-- `Boid.normalize`: divide by the magnitude when it is positive,
otherwise return the vector unchanged. -/
def normalize (vector : Vec) : Vec :=
  if Vec.norm vector > 0 then vector / Vec.norm vector else vector

/-- `Boid.limit`: rescale to magnitude `max_value` when the magnitude
exceeds it, otherwise return the vector unchanged. -/
def limit (vector : Vec) (max_value : ℝ) : Vec :=
  if Vec.norm vector > max_value then (vector / Vec.norm vector) * max_value
  else vector

/-- `Boid.apply_force`: add the force to the acceleration accumulator. -/
def apply_force (b : Boid) (force : Vec) : Boid :=
  { b with acceleration := b.acceleration + force }

/-- `Boid.handle_boundaries`: nudge the velocity by `edge_force` toward
the interior when the position is within `margin = 50` of an edge.  The
position itself is untouched. -/
def handle_boundaries (ps : Params) (b : Boid) : Boid :=
  let margin : ℝ := 50
  let turn_factor := ps.edge_force
  let vx1 := if b.position.x < margin then b.velocity.x + turn_factor
    else b.velocity.x
  let vx2 := if b.position.x > WIDTH - margin then vx1 - turn_factor else vx1
  let vy1 := if b.position.y < margin then b.velocity.y + turn_factor
    else b.velocity.y
  let vy2 := if b.position.y > HEIGHT - margin then vy1 - turn_factor else vy1
  { b with velocity := ⟨vx2, vy2⟩ }

/-- The integration steps of `Boid.update` before its final
`handle_boundaries` call: integrate acceleration into velocity, clamp
the speed at `max_speed`, advance the position by the velocity, reset
the acceleration. -/
def integrate (ps : Params) (b : Boid) : Boid :=
  let v1 := b.velocity + b.acceleration
  let speed := Vec.norm v1
  let v2 := if speed > ps.max_speed then (v1 / speed) * ps.max_speed else v1
  let p2 := b.position + v2
  { b with velocity := v2, position := p2, acceleration := Vec.zero }

/-- `Boid.update`: the integration steps followed by boundary
handling. -/
def update (ps : Params) (b : Boid) : Boid :=
  handle_boundaries ps (integrate ps b)

/-- The denominator of the separation contribution:
`distance * distance + 1e-5` (the `1e-5` guards division by zero). -/
def sep_denom (distance : ℝ) : ℝ := distance * distance + 1e-5

/-- Accumulators of the neighbor-scan loop inside `Boid.flock`. -/
structure FlockAcc where
  neighbors : List ℕ
  separation : Vec
  alignment : Vec
  cohesion : Vec
  total_separation : ℕ
  total_alignment : ℕ
  total_cohesion : ℕ

/-- Accumulator state at the top of `Boid.flock`, before the scan. -/
def initAcc : FlockAcc :=
  { neighbors := []
    separation := Vec.zero
    alignment := Vec.zero
    cohesion := Vec.zero
    total_separation := 0
    total_alignment := 0
    total_cohesion := 0 }

/-- One iteration of the `for other in boids` loop of `Boid.flock`:
skip `self` (identity modelled by the index `selfIdx`); within the
perception radius record the neighbor and accumulate the alignment and
cohesion sums; additionally within the separation radius accumulate the
separation sum. -/
def scanStep (ps : Params) (self : Boid) (selfIdx : ℕ) (acc : FlockAcc)
    (jb : ℕ × Boid) : FlockAcc :=
  if jb.1 = selfIdx then acc
  else
    let other := jb.2
    let distance := Vec.norm (self.position - other.position)
    if distance < ps.perception_radius then
      { neighbors := acc.neighbors ++ [jb.1]
        separation :=
          if distance < ps.separation_radius then
            acc.separation +
              (self.position - other.position) / sep_denom distance
          else acc.separation
        total_separation :=
          if distance < ps.separation_radius then acc.total_separation + 1
          else acc.total_separation
        alignment := acc.alignment + other.velocity
        total_alignment := acc.total_alignment + 1
        cohesion := acc.cohesion + other.position
        total_cohesion := acc.total_cohesion + 1 }
    else acc

/-- The full neighbor scan of `Boid.flock` over the flock list. -/
def flockScan (ps : Params) (self : Boid) (selfIdx : ℕ)
    (boids : List Boid) : FlockAcc :=
  boids.enum.foldl (scanStep ps self selfIdx) initAcc

/-- The separation sub-force as computed by `Boid.flock` just before
`separation_weight` is multiplied in: average, normalize, scale to
`max_speed`, subtract the velocity, clamp to `0.2`. -/
def separation_force (ps : Params) (self : Boid) (acc : FlockAcc) : Vec :=
  let s := acc.separation / (acc.total_separation : ℝ)
  let s := normalize s * ps.max_speed
  let s := s - self.velocity
  limit s 0.2

/-- The alignment sub-force just before `alignment_weight` is
multiplied in. -/
def alignment_force (ps : Params) (self : Boid) (acc : FlockAcc) : Vec :=
  let a := acc.alignment / (acc.total_alignment : ℝ)
  let a := normalize a * ps.max_speed
  let a := a - self.velocity
  limit a 0.2

/-- The cohesion sub-force just before `cohesion_weight` is
multiplied in. -/
def cohesion_force (ps : Params) (self : Boid) (acc : FlockAcc) : Vec :=
  let c := acc.cohesion / (acc.total_cohesion : ℝ)
  let c := c - self.position
  let c := normalize c * ps.max_speed
  let c := c - self.velocity
  limit c 0.2

/-- `Boid.flock`: reset the neighbor cache, scan the flock, then apply
each of the three weighted rules whose guard count is positive.  The
method mutates `self.neighbors` and (via `apply_force`)
`self.acceleration`; the returned value is the new state of `self`. -/
def flock (ps : Params) (boids : List Boid) (selfIdx : ℕ) (self : Boid) :
    Boid :=
  let acc := flockScan ps self selfIdx boids
  let b1 := { self with neighbors := acc.neighbors }
  let b2 :=
    if acc.total_separation > 0 then
      apply_force b1 (separation_force ps self acc * ps.separation_weight)
    else b1
  let b3 :=
    if acc.total_alignment > 0 then
      apply_force b2 (alignment_force ps self acc * ps.alignment_weight)
    else b2
  let b4 :=
    if acc.total_cohesion > 0 then
      apply_force b3 (cohesion_force ps self acc * ps.cohesion_weight)
    else b3
  b4

/-- One frame of the main loop: `for boid in boids: boid.flock(boids);
boid.update()`.  The loop mutates the list elements in place, so the
boid processed at index `i` reads the already-updated states of the
boids at indices before `i`. -/
def stepAll (ps : Params) (boids : List Boid) : List Boid :=
  (List.range boids.length).foldl
    (fun cur i => cur.set i (update ps (flock ps cur i (cur.getD i default))))
    boids

/-! General facts about the vector helpers. -/

theorem Vec.norm_nonneg (v : Vec) : 0 ≤ v.norm := Real.sqrt_nonneg _

theorem Vec.norm_eq_zero_iff (v : Vec) : v.norm = 0 ↔ v = Vec.zero := by
  obtain ⟨x, y⟩ := v
  rw [Vec.norm, Real.sqrt_eq_zero (by positivity)]
  constructor
  · intro h
    have hx : x = 0 := by nlinarith [sq_nonneg x, sq_nonneg y]
    have hy : y = 0 := by nlinarith [sq_nonneg x, sq_nonneg y]
    simp [Vec.zero, hx, hy]
  · intro h
    rw [show x = 0 by simpa [Vec.zero] using congrArg Vec.x h,
      show y = 0 by simpa [Vec.zero] using congrArg Vec.y h]
    ring

theorem Vec.norm_pos_of_ne_zero {v : Vec} (h : v ≠ Vec.zero) : 0 < v.norm := by
  rcases lt_or_eq_of_le (Vec.norm_nonneg v) with hp | hz
  · exact hp
  · exact absurd ((Vec.norm_eq_zero_iff v).mp hz.symm) h

theorem Vec.norm_mul (v : Vec) (c : ℝ) : (v * c).norm = v.norm * |c| := by
  obtain ⟨x, y⟩ := v
  rw [show (Vec.mk x y) * c = ⟨x * c, y * c⟩ from rfl]
  rw [Vec.norm, Vec.norm, show (x * c) ^ 2 + (y * c) ^ 2 =
    (x ^ 2 + y ^ 2) * c ^ 2 by ring, Real.sqrt_mul (by positivity),
    Real.sqrt_sq_eq_abs]

theorem Vec.div_as_mul_inv (v : Vec) (c : ℝ) : v / c = v * c⁻¹ := by
  obtain ⟨x, y⟩ := v
  rw [show (Vec.mk x y) / c = ⟨x / c, y / c⟩ from rfl]
  rw [show (Vec.mk x y) * c⁻¹ = ⟨x * c⁻¹, y * c⁻¹⟩ from rfl]
  rw [show x / c = x * c⁻¹ by ring, show y / c = y * c⁻¹ by ring]

theorem Vec.norm_div (v : Vec) (c : ℝ) : (v / c).norm = v.norm / |c| := by
  rw [Vec.div_as_mul_inv, Vec.norm_mul, abs_inv]
  rw [show v.norm / |c| = v.norm * |c|⁻¹ by ring]

/-- Safe normalize: the zero vector is returned unchanged. -/
theorem normalize_zero_vec : normalize Vec.zero = Vec.zero := by
  rw [normalize, if_neg]
  rw [(Vec.norm_eq_zero_iff Vec.zero).mpr rfl]
  exact lt_irrefl 0

theorem norm_normalize {v : Vec} (h : v ≠ Vec.zero) :
    (normalize v).norm = 1 := by
  have hp := Vec.norm_pos_of_ne_zero h
  rw [normalize, if_pos hp, Vec.norm_div, abs_of_pos hp, div_self hp.ne']

theorem normalize_eq_smul {v : Vec} (h : v ≠ Vec.zero) :
    ∃ c : ℝ, 0 < c ∧ normalize v = c • v := by
  have hp := Vec.norm_pos_of_ne_zero h
  refine ⟨(v.norm)⁻¹, inv_pos.mpr hp, ?_⟩
  rw [normalize, if_pos hp]
  obtain ⟨x, y⟩ := v
  rw [show (Vec.mk x y) / Vec.norm ⟨x, y⟩ =
    ⟨x / Vec.norm ⟨x, y⟩, y / Vec.norm ⟨x, y⟩⟩ from rfl]
  rw [show (Vec.norm ⟨x, y⟩)⁻¹ • (Vec.mk x y) =
    ⟨(Vec.norm ⟨x, y⟩)⁻¹ * x, (Vec.norm ⟨x, y⟩)⁻¹ * y⟩ from rfl]
  rw [div_eq_inv_mul, div_eq_inv_mul]

/-- The clamp: when the magnitude exceeds the (positive) bound, `limit`
rescales to magnitude exactly the bound. -/
theorem norm_limit_of_gt {v : Vec} {m : ℝ} (hm : 0 ≤ m)
    (h : Vec.norm v > m) : (limit v m).norm = m := by
  have hp : 0 < Vec.norm v := lt_of_le_of_lt hm h
  rw [limit, if_pos h, Vec.norm_mul, Vec.norm_div, abs_of_pos hp,
    div_self hp.ne', one_mul, abs_of_nonneg hm]

theorem norm_limit_le (v : Vec) {m : ℝ} (hm : 0 ≤ m) :
    (limit v m).norm ≤ m := by
  by_cases h : Vec.norm v > m
  · exact le_of_eq (norm_limit_of_gt hm h)
  · rw [limit, if_neg h]
    exact not_lt.mp h

/-! Evaluation helpers for states lying on a horizontal line: every
vector that appears has the form `⟨x, 0⟩`. -/

theorem normalize_x_pos {x : ℝ} (h : 0 < x) : normalize ⟨x, 0⟩ = ⟨1, 0⟩ := by
  rw [normalize, if_pos (by rw [Vec.norm_mk_x0]; exact abs_pos.mpr h.ne')]
  rw [Vec.norm_mk_x0, abs_of_pos h]
  simp only [Vec.div_mk]
  rw [div_self h.ne', zero_div]

theorem normalize_x_neg {x : ℝ} (h : x < 0) : normalize ⟨x, 0⟩ = ⟨-1, 0⟩ := by
  rw [normalize, if_pos (by rw [Vec.norm_mk_x0]; exact abs_pos.mpr h.ne)]
  rw [Vec.norm_mk_x0, abs_of_neg h]
  have hne : x ≠ 0 := h.ne
  simp only [Vec.div_mk]
  rw [show x / -x = -1 by field_simp, show (0 : ℝ) / -x = 0 by simp]

theorem limit_x_le {x m : ℝ} (h : |x| ≤ m) : limit ⟨x, 0⟩ m = ⟨x, 0⟩ := by
  rw [limit, if_neg]
  rw [Vec.norm_mk_x0]
  exact not_lt.mpr h

theorem limit_x_pos {x m : ℝ} (hm : 0 ≤ m) (h : m < x) :
    limit ⟨x, 0⟩ m = ⟨m, 0⟩ := by
  have hx : 0 < x := lt_of_le_of_lt hm h
  rw [limit, if_pos (by rw [Vec.norm_mk_x0, abs_of_pos hx]; exact h)]
  rw [Vec.norm_mk_x0, abs_of_pos hx]
  simp only [Vec.div_mk, Vec.mul_mk]
  rw [div_self hx.ne', one_mul, zero_div, zero_mul]

theorem normalize_zero_mk : normalize ⟨0, 0⟩ = ⟨0, 0⟩ := normalize_zero_vec

theorem limit_x_neg {x m : ℝ} (hm : 0 ≤ m) (h : x < -m) :
    limit ⟨x, 0⟩ m = ⟨-m, 0⟩ := by
  have hx : x < 0 := lt_of_lt_of_le h (by linarith)
  rw [limit, if_pos (by rw [Vec.norm_mk_x0, abs_of_neg hx]; linarith)]
  rw [Vec.norm_mk_x0, abs_of_neg hx]
  simp only [Vec.div_mk, Vec.mul_mk]
  rw [show x / -x = -1 by rw [div_neg, div_self hx.ne]]
  rw [zero_div, zero_mul, neg_one_mul]

/-! Evaluation lemmas for the scan loop. -/

theorem scanStep_skip (ps : Params) (self : Boid) (i : ℕ) (acc : FlockAcc)
    (jb : ℕ × Boid) (h : jb.1 = i) : scanStep ps self i acc jb = acc := by
  rw [scanStep, if_pos h]

theorem scanStep_both (ps : Params) (self : Boid) (i : ℕ) (acc : FlockAcc)
    (j : ℕ) (other : Boid) (h1 : ¬ j = i)
    (h2 : Vec.norm (self.position - other.position) < ps.perception_radius)
    (h3 : Vec.norm (self.position - other.position) < ps.separation_radius) :
    scanStep ps self i acc (j, other) =
      { neighbors := acc.neighbors ++ [j]
        separation := acc.separation + (self.position - other.position) /
          sep_denom (Vec.norm (self.position - other.position))
        alignment := acc.alignment + other.velocity
        cohesion := acc.cohesion + other.position
        total_separation := acc.total_separation + 1
        total_alignment := acc.total_alignment + 1
        total_cohesion := acc.total_cohesion + 1 } := by
  rw [scanStep, if_neg h1]
  simp only [if_pos h2, if_pos h3]

theorem flockScan_pair_self0 (ps : Params) (self b0 b1 : Boid) :
    flockScan ps self 0 [b0, b1] = scanStep ps self 0 initAcc (1, b1) := by
  show scanStep ps self 0 (scanStep ps self 0 initAcc (0, b0)) (1, b1) = _
  rw [scanStep_skip ps self 0 initAcc (0, b0) rfl]

theorem flockScan_pair_self1 (ps : Params) (self b0 b1 : Boid) :
    flockScan ps self 1 [b0, b1] = scanStep ps self 1 initAcc (0, b0) := by
  show scanStep ps self 1 (scanStep ps self 1 initAcc (0, b0)) (1, b1) = _
  rw [scanStep_skip ps self 1 (scanStep ps self 1 initAcc (0, b0)) (1, b1) rfl]

/-- Evaluation of `Boid.flock` when the scan found exactly one
contributing neighbor for each of the three rules. -/
theorem flock_eval_one (ps : Params) (boids : List Boid) (i : ℕ)
    (self : Boid) (acc : FlockAcc) (h : flockScan ps self i boids = acc)
    (h1 : acc.total_separation = 1) (h2 : acc.total_alignment = 1)
    (h3 : acc.total_cohesion = 1) :
    flock ps boids i self =
      { self with
        neighbors := acc.neighbors
        acceleration := self.acceleration +
          separation_force ps self acc * ps.separation_weight +
          alignment_force ps self acc * ps.alignment_weight +
          cohesion_force ps self acc * ps.cohesion_weight } := by
  simp only [flock, h, apply_force]
  rw [if_pos (by rw [h3]; norm_num), if_pos (by rw [h2]; norm_num),
    if_pos (by rw [h1]; norm_num)]

/-! Evaluation of the three sub-forces for states lying on one
horizontal line (all relevant vectors have the form `⟨x, 0⟩`). -/

theorem separation_force_x (ps : Params) (self : Boid) (acc : FlockAcc)
    (sx nx vx : ℝ) (hsep : acc.separation = ⟨sx, 0⟩)
    (htot : acc.total_separation = 1) (hvel : self.velocity = ⟨vx, 0⟩)
    (hn : normalize ⟨sx, 0⟩ = ⟨nx, 0⟩) :
    separation_force ps self acc =
      limit ⟨nx * ps.max_speed - vx, 0⟩ 0.2 := by
  simp only [separation_force, hsep, htot, hvel, Nat.cast_one, Vec.div_mk,
    div_one, hn, Vec.mul_mk, Vec.sub_mk, zero_mul, zero_sub, neg_zero]

theorem alignment_force_x (ps : Params) (self : Boid) (acc : FlockAcc)
    (ax nx vx : ℝ) (hali : acc.alignment = ⟨ax, 0⟩)
    (htot : acc.total_alignment = 1) (hvel : self.velocity = ⟨vx, 0⟩)
    (hn : normalize ⟨ax, 0⟩ = ⟨nx, 0⟩) :
    alignment_force ps self acc =
      limit ⟨nx * ps.max_speed - vx, 0⟩ 0.2 := by
  simp only [alignment_force, hali, htot, hvel, Nat.cast_one, Vec.div_mk,
    div_one, hn, Vec.mul_mk, Vec.sub_mk, zero_mul, zero_sub, neg_zero]

theorem cohesion_force_x (ps : Params) (self : Boid) (acc : FlockAcc)
    (cx cy px nx vx : ℝ) (hcoh : acc.cohesion = ⟨cx, cy⟩)
    (htot : acc.total_cohesion = 1) (hpos : self.position = ⟨px, cy⟩)
    (hvel : self.velocity = ⟨vx, 0⟩)
    (hn : normalize ⟨cx - px, 0⟩ = ⟨nx, 0⟩) :
    cohesion_force ps self acc =
      limit ⟨nx * ps.max_speed - vx, 0⟩ 0.2 := by
  simp only [cohesion_force, hcoh, htot, hpos, hvel, Nat.cast_one,
    Vec.div_mk, div_one, Vec.sub_mk, sub_self, hn, Vec.mul_mk, zero_mul,
    zero_sub, neg_zero]

/-- Evaluation of `Boid.update` for a boid moving horizontally whose
speed stays within `max_speed` and whose new position is inside all four
margin bands. -/
theorem update_eval_interior (ps : Params) (b : Boid) (px py vx ax : ℝ)
    (hpos : b.position = ⟨px, py⟩) (hvel : b.velocity = ⟨vx, 0⟩)
    (hacc : b.acceleration = ⟨ax, 0⟩)
    (hsp : ¬ Vec.norm ⟨vx + ax, 0⟩ > ps.max_speed)
    (h1 : ¬ px + (vx + ax) < 50) (h2 : ¬ px + (vx + ax) > WIDTH - 50)
    (h3 : ¬ py + 0 < 50) (h4 : ¬ py + 0 > HEIGHT - 50) :
    update ps b =
      { b with
        position := ⟨px + (vx + ax), py⟩
        velocity := ⟨vx + ax, 0⟩
        acceleration := Vec.zero } := by
  simp only [update, integrate, hpos, hvel, hacc, Vec.add_mk, add_zero]
  rw [if_neg (by simpa using hsp)]
  simp only [handle_boundaries, Vec.add_mk, add_zero]
  rw [if_neg (by simpa using h2), if_neg (by simpa using h1),
    if_neg (by simpa using h4), if_neg (by simpa using h3)]

/-! Concrete probe states used by the counterexample computations. -/

/-- A boid whose flock list contains a second boid at the very same
position (`distance = 0`). -/
def probeSame : Boid := ⟨⟨100, 100⟩, ⟨1, 0⟩, Vec.zero, []⟩

theorem flock_same_pos_scan :
    flockScan defaultParams probeSame 0 [probeSame, probeSame] =
      { neighbors := [1], separation := ⟨0, 0⟩, alignment := ⟨1, 0⟩,
        cohesion := ⟨100, 100⟩, total_separation := 1, total_alignment := 1,
        total_cohesion := 1 } := by
  have hdist : Vec.norm (probeSame.position - probeSame.position) = 0 := by
    rw [show probeSame.position - probeSame.position = ⟨0, 0⟩ by
      norm_num [probeSame], Vec.norm_mk_x0, abs_zero]
  rw [flockScan_pair_self0,
    scanStep_both _ _ _ _ _ _ (by norm_num)
      (by rw [hdist]; norm_num [defaultParams])
      (by rw [hdist]; norm_num [defaultParams]),
    hdist]
  norm_num [initAcc, probeSame, sep_denom, Vec.zero]

theorem flock_same_pos_eval :
    flock defaultParams [probeSame, probeSame] 0 probeSame =
      { probeSame with neighbors := [1], acceleration := ⟨-0.486, 0⟩ } := by
  have hsf : separation_force defaultParams probeSame
      { neighbors := [1], separation := ⟨0, 0⟩, alignment := ⟨1, 0⟩,
        cohesion := ⟨100, 100⟩, total_separation := 1, total_alignment := 1,
        total_cohesion := 1 } = ⟨-0.2, 0⟩ := by
    rw [separation_force_x _ _ _ 0 0 1 rfl rfl rfl normalize_zero_mk,
      show (0 : ℝ) * defaultParams.max_speed - 1 = -1 by
        norm_num [defaultParams],
      limit_x_neg (by norm_num) (by norm_num)]
  have haf : alignment_force defaultParams probeSame
      { neighbors := [1], separation := ⟨0, 0⟩, alignment := ⟨1, 0⟩,
        cohesion := ⟨100, 100⟩, total_separation := 1, total_alignment := 1,
        total_cohesion := 1 } = ⟨0.2, 0⟩ := by
    rw [alignment_force_x _ _ _ 1 1 1 rfl rfl rfl
        (normalize_x_pos one_pos),
      show (1 : ℝ) * defaultParams.max_speed - 1 = 3 by
        norm_num [defaultParams],
      limit_x_pos (by norm_num) (by norm_num)]
  have hcf : cohesion_force defaultParams probeSame
      { neighbors := [1], separation := ⟨0, 0⟩, alignment := ⟨1, 0⟩,
        cohesion := ⟨100, 100⟩, total_separation := 1, total_alignment := 1,
        total_cohesion := 1 } = ⟨-0.2, 0⟩ := by
    rw [cohesion_force_x _ _ _ 100 100 100 0 1 rfl rfl rfl rfl
        (by norm_num [normalize_zero_mk]),
      show (0 : ℝ) * defaultParams.max_speed - 1 = -1 by
        norm_num [defaultParams],
      limit_x_neg (by norm_num) (by norm_num)]
  rw [flock_eval_one _ _ _ _ _ flock_same_pos_scan rfl rfl rfl, hsf, haf, hcf]
  norm_num [probeSame, defaultParams, Vec.zero]

/-- First boid of the iteration-order experiment. -/
def probeA : Boid := ⟨⟨100, 100⟩, ⟨4, 0⟩, Vec.zero, []⟩

/-- Second boid of the iteration-order experiment. -/
def probeB : Boid := ⟨⟨102, 100⟩, ⟨0, 0⟩, Vec.zero, []⟩

/-- State of `probeA` after its `flock` call when it is processed first. -/
def flockA0 : Boid := ⟨⟨100, 100⟩, ⟨4, 0⟩, ⟨-1.06, 0⟩, [1]⟩

/-- State of `probeA` after its `update` call when it is processed
first. -/
def stepA0 : Boid := ⟨⟨102.94, 100⟩, ⟨2.94, 0⟩, Vec.zero, [1]⟩

/-- State of `probeB` after its `flock` call when it is processed second
(it already sees the updated `probeA`). -/
def flockA1 : Boid := ⟨⟨102, 100⟩, ⟨0, 0⟩, ⟨0.206, 0⟩, [0]⟩

/-- State of `probeB` after its `update` call when it is processed
second. -/
def stepA1 : Boid := ⟨⟨102.206, 100⟩, ⟨0.206, 0⟩, Vec.zero, [0]⟩

theorem flock_evalA0 :
    flock defaultParams [probeA, probeB] 0 probeA = flockA0 := by
  have hdist : Vec.norm (probeA.position - probeB.position) = 2 := by
    rw [show probeA.position - probeB.position = ⟨-2, 0⟩ by
      norm_num [probeA, probeB], Vec.norm_mk_x0]
    norm_num
  have hscan : flockScan defaultParams probeA 0 [probeA, probeB] =
      { neighbors := [1], separation := ⟨-2 / (4 + 1e-5), 0⟩,
        alignment := ⟨0, 0⟩, cohesion := ⟨102, 100⟩, total_separation := 1,
        total_alignment := 1, total_cohesion := 1 } := by
    rw [flockScan_pair_self0,
      scanStep_both _ _ _ _ _ _ (by norm_num)
        (by rw [hdist]; norm_num [defaultParams])
        (by rw [hdist]; norm_num [defaultParams]),
      hdist]
    norm_num [initAcc, probeA, probeB, sep_denom, Vec.zero]
  have hsf : separation_force defaultParams probeA
      { neighbors := [1], separation := ⟨-2 / (4 + 1e-5), 0⟩,
        alignment := ⟨0, 0⟩, cohesion := ⟨102, 100⟩, total_separation := 1,
        total_alignment := 1, total_cohesion := 1 } = ⟨-0.2, 0⟩ := by
    rw [separation_force_x _ _ _ (-2 / (4 + 1e-5)) (-1) 4 rfl rfl rfl
        (normalize_x_neg (by norm_num)),
      show (-1 : ℝ) * defaultParams.max_speed - 4 = -8 by
        norm_num [defaultParams],
      limit_x_neg (by norm_num) (by norm_num)]
  have haf : alignment_force defaultParams probeA
      { neighbors := [1], separation := ⟨-2 / (4 + 1e-5), 0⟩,
        alignment := ⟨0, 0⟩, cohesion := ⟨102, 100⟩, total_separation := 1,
        total_alignment := 1, total_cohesion := 1 } = ⟨-0.2, 0⟩ := by
    rw [alignment_force_x _ _ _ 0 0 4 rfl rfl rfl normalize_zero_mk,
      show (0 : ℝ) * defaultParams.max_speed - 4 = -4 by
        norm_num [defaultParams],
      limit_x_neg (by norm_num) (by norm_num)]
  have hcf : cohesion_force defaultParams probeA
      { neighbors := [1], separation := ⟨-2 / (4 + 1e-5), 0⟩,
        alignment := ⟨0, 0⟩, cohesion := ⟨102, 100⟩, total_separation := 1,
        total_alignment := 1, total_cohesion := 1 } = ⟨0, 0⟩ := by
    rw [cohesion_force_x _ _ _ 102 100 100 1 4 rfl rfl rfl rfl
        (by rw [show (102 : ℝ) - 100 = 2 by norm_num]
            exact normalize_x_pos (by norm_num)),
      show (1 : ℝ) * defaultParams.max_speed - 4 = 0 by
        norm_num [defaultParams],
      limit_x_le (by norm_num)]
  rw [flock_eval_one _ _ _ _ _ hscan rfl rfl rfl, hsf, haf, hcf]
  norm_num [probeA, flockA0, defaultParams, Vec.zero]

theorem update_evalA0 : update defaultParams flockA0 = stepA0 := by
  rw [update_eval_interior defaultParams flockA0 100 100 4 (-1.06) rfl rfl
      rfl
      (by rw [show (4 : ℝ) + -1.06 = 2.94 by norm_num, Vec.norm_mk_x0,
            abs_of_nonneg (by norm_num : (0 : ℝ) ≤ 2.94)]
          norm_num [defaultParams])
      (by norm_num) (by norm_num [WIDTH]) (by norm_num)
      (by norm_num [HEIGHT])]
  norm_num [flockA0, stepA0]

theorem flock_evalA1 :
    flock defaultParams [stepA0, probeB] 1 probeB = flockA1 := by
  have hdist : Vec.norm (probeB.position - stepA0.position) = 0.94 := by
    rw [show probeB.position - stepA0.position = ⟨-0.94, 0⟩ by
      norm_num [probeB, stepA0], Vec.norm_mk_x0]
    norm_num
  have hscan : flockScan defaultParams probeB 1 [stepA0, probeB] =
      { neighbors := [0], separation := ⟨-0.94 / (0.94 * 0.94 + 1e-5), 0⟩,
        alignment := ⟨2.94, 0⟩, cohesion := ⟨102.94, 100⟩,
        total_separation := 1, total_alignment := 1,
        total_cohesion := 1 } := by
    rw [flockScan_pair_self1,
      scanStep_both _ _ _ _ _ _ (by norm_num)
        (by rw [hdist]; norm_num [defaultParams])
        (by rw [hdist]; norm_num [defaultParams]),
      hdist]
    norm_num [initAcc, probeB, stepA0, sep_denom, Vec.zero]
  have hsf : separation_force defaultParams probeB
      { neighbors := [0], separation := ⟨-0.94 / (0.94 * 0.94 + 1e-5), 0⟩,
        alignment := ⟨2.94, 0⟩, cohesion := ⟨102.94, 100⟩,
        total_separation := 1, total_alignment := 1,
        total_cohesion := 1 } = ⟨-0.2, 0⟩ := by
    rw [separation_force_x _ _ _ (-0.94 / (0.94 * 0.94 + 1e-5)) (-1) 0 rfl
        rfl rfl (normalize_x_neg (by norm_num)),
      show (-1 : ℝ) * defaultParams.max_speed - 0 = -4 by
        norm_num [defaultParams],
      limit_x_neg (by norm_num) (by norm_num)]
  have haf : alignment_force defaultParams probeB
      { neighbors := [0], separation := ⟨-0.94 / (0.94 * 0.94 + 1e-5), 0⟩,
        alignment := ⟨2.94, 0⟩, cohesion := ⟨102.94, 100⟩,
        total_separation := 1, total_alignment := 1,
        total_cohesion := 1 } = ⟨0.2, 0⟩ := by
    rw [alignment_force_x _ _ _ 2.94 1 0 rfl rfl rfl
        (normalize_x_pos (by norm_num)),
      show (1 : ℝ) * defaultParams.max_speed - 0 = 4 by
        norm_num [defaultParams],
      limit_x_pos (by norm_num) (by norm_num)]
  have hcf : cohesion_force defaultParams probeB
      { neighbors := [0], separation := ⟨-0.94 / (0.94 * 0.94 + 1e-5), 0⟩,
        alignment := ⟨2.94, 0⟩, cohesion := ⟨102.94, 100⟩,
        total_separation := 1, total_alignment := 1,
        total_cohesion := 1 } = ⟨0.2, 0⟩ := by
    rw [cohesion_force_x _ _ _ 102.94 100 102 1 0 rfl rfl rfl rfl
        (by rw [show (102.94 : ℝ) - 102 = 0.94 by norm_num]
            exact normalize_x_pos (by norm_num)),
      show (1 : ℝ) * defaultParams.max_speed - 0 = 4 by
        norm_num [defaultParams],
      limit_x_pos (by norm_num) (by norm_num)]
  rw [flock_eval_one _ _ _ _ _ hscan rfl rfl rfl, hsf, haf, hcf]
  norm_num [probeB, flockA1, defaultParams, Vec.zero]

theorem update_evalA1 : update defaultParams flockA1 = stepA1 := by
  rw [update_eval_interior defaultParams flockA1 102 100 0 0.206 rfl rfl
      rfl
      (by rw [show (0 : ℝ) + 0.206 = 0.206 by norm_num, Vec.norm_mk_x0,
            abs_of_nonneg (by norm_num : (0 : ℝ) ≤ 0.206)]
          norm_num [defaultParams])
      (by norm_num) (by norm_num [WIDTH]) (by norm_num)
      (by norm_num [HEIGHT])]
  norm_num [flockA1, stepA1]

/-- State of `probeB` after its `flock` call when it is processed first
(it still sees the original `probeA`). -/
def flockB0 : Boid := ⟨⟨102, 100⟩, ⟨0, 0⟩, ⟨0.714, 0⟩, [1]⟩

/-- State of `probeB` after its `update` call when it is processed
first. -/
def stepB0 : Boid := ⟨⟨102.714, 100⟩, ⟨0.714, 0⟩, Vec.zero, [1]⟩

/-- State of `probeA` after its `flock` call when it is processed second
(it sees the updated `probeB`, whose velocity is no longer zero). -/
def flockB1 : Boid := ⟨⟨100, 100⟩, ⟨4, 0⟩, ⟨-0.6, 0⟩, [0]⟩

/-- State of `probeA` after its `update` call when it is processed
second. -/
def stepB1 : Boid := ⟨⟨103.4, 100⟩, ⟨3.4, 0⟩, Vec.zero, [0]⟩

theorem flock_evalB0 :
    flock defaultParams [probeB, probeA] 0 probeB = flockB0 := by
  have hdist : Vec.norm (probeB.position - probeA.position) = 2 := by
    rw [show probeB.position - probeA.position = ⟨2, 0⟩ by
      norm_num [probeA, probeB], Vec.norm_mk_x0]
    norm_num
  have hscan : flockScan defaultParams probeB 0 [probeB, probeA] =
      { neighbors := [1], separation := ⟨2 / (4 + 1e-5), 0⟩,
        alignment := ⟨4, 0⟩, cohesion := ⟨100, 100⟩, total_separation := 1,
        total_alignment := 1, total_cohesion := 1 } := by
    rw [flockScan_pair_self0,
      scanStep_both _ _ _ _ _ _ (by norm_num)
        (by rw [hdist]; norm_num [defaultParams])
        (by rw [hdist]; norm_num [defaultParams]),
      hdist]
    norm_num [initAcc, probeA, probeB, sep_denom, Vec.zero]
  have hsf : separation_force defaultParams probeB
      { neighbors := [1], separation := ⟨2 / (4 + 1e-5), 0⟩,
        alignment := ⟨4, 0⟩, cohesion := ⟨100, 100⟩, total_separation := 1,
        total_alignment := 1, total_cohesion := 1 } = ⟨0.2, 0⟩ := by
    rw [separation_force_x _ _ _ (2 / (4 + 1e-5)) 1 0 rfl rfl rfl
        (normalize_x_pos (by norm_num)),
      show (1 : ℝ) * defaultParams.max_speed - 0 = 4 by
        norm_num [defaultParams],
      limit_x_pos (by norm_num) (by norm_num)]
  have haf : alignment_force defaultParams probeB
      { neighbors := [1], separation := ⟨2 / (4 + 1e-5), 0⟩,
        alignment := ⟨4, 0⟩, cohesion := ⟨100, 100⟩, total_separation := 1,
        total_alignment := 1, total_cohesion := 1 } = ⟨0.2, 0⟩ := by
    rw [alignment_force_x _ _ _ 4 1 0 rfl rfl rfl
        (normalize_x_pos (by norm_num)),
      show (1 : ℝ) * defaultParams.max_speed - 0 = 4 by
        norm_num [defaultParams],
      limit_x_pos (by norm_num) (by norm_num)]
  have hcf : cohesion_force defaultParams probeB
      { neighbors := [1], separation := ⟨2 / (4 + 1e-5), 0⟩,
        alignment := ⟨4, 0⟩, cohesion := ⟨100, 100⟩, total_separation := 1,
        total_alignment := 1, total_cohesion := 1 } = ⟨-0.2, 0⟩ := by
    rw [cohesion_force_x _ _ _ 100 100 102 (-1) 0 rfl rfl rfl rfl
        (by rw [show (100 : ℝ) - 102 = -2 by norm_num]
            exact normalize_x_neg (by norm_num)),
      show (-1 : ℝ) * defaultParams.max_speed - 0 = -4 by
        norm_num [defaultParams],
      limit_x_neg (by norm_num) (by norm_num)]
  rw [flock_eval_one _ _ _ _ _ hscan rfl rfl rfl, hsf, haf, hcf]
  norm_num [probeB, flockB0, defaultParams, Vec.zero]

theorem update_evalB0 : update defaultParams flockB0 = stepB0 := by
  rw [update_eval_interior defaultParams flockB0 102 100 0 0.714 rfl rfl
      rfl
      (by rw [show (0 : ℝ) + 0.714 = 0.714 by norm_num, Vec.norm_mk_x0,
            abs_of_nonneg (by norm_num : (0 : ℝ) ≤ 0.714)]
          norm_num [defaultParams])
      (by norm_num) (by norm_num [WIDTH]) (by norm_num)
      (by norm_num [HEIGHT])]
  norm_num [flockB0, stepB0]

theorem flock_evalB1 :
    flock defaultParams [stepB0, probeA] 1 probeA = flockB1 := by
  have hdist : Vec.norm (probeA.position - stepB0.position) = 2.714 := by
    rw [show probeA.position - stepB0.position = ⟨-2.714, 0⟩ by
      norm_num [probeA, stepB0], Vec.norm_mk_x0]
    norm_num
  have hscan : flockScan defaultParams probeA 1 [stepB0, probeA] =
      { neighbors := [0],
        separation := ⟨-2.714 / (2.714 * 2.714 + 1e-5), 0⟩,
        alignment := ⟨0.714, 0⟩, cohesion := ⟨102.714, 100⟩,
        total_separation := 1, total_alignment := 1,
        total_cohesion := 1 } := by
    rw [flockScan_pair_self1,
      scanStep_both _ _ _ _ _ _ (by norm_num)
        (by rw [hdist]; norm_num [defaultParams])
        (by rw [hdist]; norm_num [defaultParams]),
      hdist]
    norm_num [initAcc, probeA, stepB0, sep_denom, Vec.zero]
  have hsf : separation_force defaultParams probeA
      { neighbors := [0],
        separation := ⟨-2.714 / (2.714 * 2.714 + 1e-5), 0⟩,
        alignment := ⟨0.714, 0⟩, cohesion := ⟨102.714, 100⟩,
        total_separation := 1, total_alignment := 1,
        total_cohesion := 1 } = ⟨-0.2, 0⟩ := by
    rw [separation_force_x _ _ _ (-2.714 / (2.714 * 2.714 + 1e-5)) (-1) 4
        rfl rfl rfl (normalize_x_neg (by norm_num)),
      show (-1 : ℝ) * defaultParams.max_speed - 4 = -8 by
        norm_num [defaultParams],
      limit_x_neg (by norm_num) (by norm_num)]
  have haf : alignment_force defaultParams probeA
      { neighbors := [0],
        separation := ⟨-2.714 / (2.714 * 2.714 + 1e-5), 0⟩,
        alignment := ⟨0.714, 0⟩, cohesion := ⟨102.714, 100⟩,
        total_separation := 1, total_alignment := 1,
        total_cohesion := 1 } = ⟨0, 0⟩ := by
    rw [alignment_force_x _ _ _ 0.714 1 4 rfl rfl rfl
        (normalize_x_pos (by norm_num)),
      show (1 : ℝ) * defaultParams.max_speed - 4 = 0 by
        norm_num [defaultParams],
      limit_x_le (by norm_num)]
  have hcf : cohesion_force defaultParams probeA
      { neighbors := [0],
        separation := ⟨-2.714 / (2.714 * 2.714 + 1e-5), 0⟩,
        alignment := ⟨0.714, 0⟩, cohesion := ⟨102.714, 100⟩,
        total_separation := 1, total_alignment := 1,
        total_cohesion := 1 } = ⟨0, 0⟩ := by
    rw [cohesion_force_x _ _ _ 102.714 100 100 1 4 rfl rfl rfl rfl
        (by rw [show (102.714 : ℝ) - 100 = 2.714 by norm_num]
            exact normalize_x_pos (by norm_num)),
      show (1 : ℝ) * defaultParams.max_speed - 4 = 0 by
        norm_num [defaultParams],
      limit_x_le (by norm_num)]
  rw [flock_eval_one _ _ _ _ _ hscan rfl rfl rfl, hsf, haf, hcf]
  norm_num [probeA, flockB1, defaultParams, Vec.zero]

theorem update_evalB1 : update defaultParams flockB1 = stepB1 := by
  rw [update_eval_interior defaultParams flockB1 100 100 4 (-0.6) rfl rfl
      rfl
      (by rw [show (4 : ℝ) + -0.6 = 3.4 by norm_num, Vec.norm_mk_x0,
            abs_of_nonneg (by norm_num : (0 : ℝ) ≤ 3.4)]
          norm_num [defaultParams])
      (by norm_num) (by norm_num [WIDTH]) (by norm_num)
      (by norm_num [HEIGHT])]
  norm_num [flockB1, stepB1]

/-- Unfolding of one frame of the main loop over a two-element flock:
the second boid's `flock` call reads the already-updated first boid. -/
theorem stepAll_pair (ps : Params) (a b : Boid) :
    stepAll ps [a, b] =
      [update ps (flock ps [a, b] 0 a),
       update ps (flock ps [update ps (flock ps [a, b] 0 a), b] 1 b)] :=
  rfl

theorem stepAll_orderA :
    stepAll defaultParams [probeA, probeB] = [stepA0, stepA1] := by
  rw [stepAll_pair, flock_evalA0, update_evalA0, flock_evalA1, update_evalA1]

theorem stepAll_orderB :
    stepAll defaultParams [probeB, probeA] = [stepB0, stepB1] := by
  rw [stepAll_pair, flock_evalB0, update_evalB0, flock_evalB1, update_evalB1]

/-- The two iteration orders give `probeA` different final velocities:
`⟨2.94, 0⟩` when it is processed first, `⟨3.4, 0⟩` when it is processed
second. -/
theorem order_dependence_core :
    ((stepAll defaultParams [probeA, probeB]).getD 0 default).velocity ≠
      ((stepAll defaultParams [probeB, probeA]).getD 1 default).velocity := by
  rw [stepAll_orderA, stepAll_orderB]
  show stepA0.velocity ≠ stepB1.velocity
  rw [stepA0, stepB1]
  intro h
  have hx := congrArg Vec.x h
  norm_num at hx

/-! Remaining helper lemmas for the claim theorems. -/

/-- Boundary handling is the identity when the position is at least the
margin away from every edge. -/
theorem handle_boundaries_interior (ps : Params) (c : Boid)
    (h1 : ¬ c.position.x < 50) (h2 : ¬ c.position.x > WIDTH - 50)
    (h3 : ¬ c.position.y < 50) (h4 : ¬ c.position.y > HEIGHT - 50) :
    handle_boundaries ps c = c := by
  simp only [handle_boundaries]
  rw [if_neg h2, if_neg h1, if_neg h4, if_neg h3]

/-- The speed clamp of `Boid.update` leaves the velocity magnitude at
most `max_speed`. -/
theorem norm_speed_clamp (v1 : Vec) (ms : ℝ) (hms : 0 ≤ ms) :
    Vec.norm (if Vec.norm v1 > ms then (v1 / Vec.norm v1) * ms else v1) ≤
      ms := by
  by_cases hgt : Vec.norm v1 > ms
  · rw [if_pos hgt, Vec.norm_mul, Vec.norm_div]
    have hp : 0 < Vec.norm v1 := lt_of_le_of_lt hms hgt
    rw [abs_of_pos hp, div_self hp.ne', one_mul, abs_of_nonneg hms]
  · rw [if_neg hgt]
    exact not_lt.mp hgt

theorem Vec.div_mul_eq_smul (v : Vec) (d m : ℝ) :
    (v / d) * m = (m / d) • v := by
  obtain ⟨x, y⟩ := v
  show Vec.mk (x / d * m) (y / d * m) = ⟨m / d * x, m / d * y⟩
  rw [show x / d * m = m / d * x by ring, show y / d * m = m / d * y by ring]

theorem scanStep_not_self_mem (ps : Params) (self : Boid) (i : ℕ)
    (acc : FlockAcc) (jb : ℕ × Boid) (h : i ∉ acc.neighbors) :
    i ∉ (scanStep ps self i acc jb).neighbors := by
  simp only [scanStep]
  split_ifs with h1 h2 h3
  all_goals first
    | exact h
    | · show i ∉ acc.neighbors ++ [jb.1]
        intro hmem
        rcases List.mem_append.mp hmem with hm | hm
        · exact h hm
        · rw [List.mem_singleton] at hm
          exact h1 (hm ▸ rfl)

theorem foldl_scan_not_self_mem (ps : Params) (self : Boid) (i : ℕ)
    (l : List (ℕ × Boid)) (acc : FlockAcc) (h : i ∉ acc.neighbors) :
    i ∉ (l.foldl (scanStep ps self i) acc).neighbors := by
  induction l generalizing acc with
  | nil => exact h
  | cons hd tl ih =>
    exact ih _ (scanStep_not_self_mem ps self i acc hd h)

/-- Probe for the speed-bound witness: a boid well inside the margin
band moving at speed 3 with no accumulated force. -/
theorem update_evalW :
    update defaultParams ⟨⟨100, 100⟩, ⟨3, 0⟩, Vec.zero, []⟩ =
      ⟨⟨103, 100⟩, ⟨3, 0⟩, Vec.zero, []⟩ := by
  rw [update_eval_interior defaultParams _ 100 100 3 0 rfl rfl rfl
      (by rw [show (3 : ℝ) + 0 = 3 by norm_num, Vec.norm_mk_x0,
            abs_of_nonneg (by norm_num : (0 : ℝ) ≤ 3)]
          norm_num [defaultParams])
      (by norm_num) (by norm_num [WIDTH]) (by norm_num)
      (by norm_num [HEIGHT])]
  norm_num

/-! The claims. -/

/-- C1, counterexample: after a single `update` call the speed bound can
fail, because the speed clamp runs before `handle_boundaries` adds the
edge-force nudge.  A boid at `x = 10` moving at exactly `max_speed = 4`
ends the step with velocity magnitude `11.25 > 4`. -/
theorem speed_bound_cex :
    Vec.norm (update defaultParams
      ⟨⟨10, 100⟩, ⟨4, 0⟩, Vec.zero, []⟩).velocity >
      defaultParams.max_speed := by
  have h : update defaultParams ⟨⟨10, 100⟩, ⟨4, 0⟩, Vec.zero, []⟩ =
      ⟨⟨14, 100⟩, ⟨11.25, 0⟩, Vec.zero, []⟩ := by
    simp only [update, integrate, Vec.zero, Vec.add_mk, add_zero]
    rw [if_neg (by
      rw [Vec.norm_mk_x0, abs_of_nonneg (by norm_num : (0 : ℝ) ≤ 4)]
      norm_num [defaultParams])]
    simp only [handle_boundaries, Vec.add_mk]
    rw [if_neg (by norm_num [WIDTH] : ¬ ((10 : ℝ) + 4 > WIDTH - 50)),
      if_pos (by norm_num : ((10 : ℝ) + 4 < 50)),
      if_neg (by norm_num [HEIGHT] : ¬ ((100 : ℝ) + 0 > HEIGHT - 50)),
      if_neg (by norm_num : ¬ ((100 : ℝ) + 0 < 50))]
    norm_num [defaultParams]
  rw [h, Vec.norm_mk_x0, abs_of_nonneg (by norm_num : (0 : ℝ) ≤ 11.25)]
  norm_num [defaultParams]

/-- C1, amended: after any `update` call with `max_speed` in its
documented range, the velocity magnitude is at most `max_speed`
provided the post-move position lies outside the four 50-unit margin
bands, so that the edge-force nudge (which runs after the clamp) does
not fire. -/
theorem speed_bound_outside_margin (ps : Params) (b : Boid)
    (hms : 0.5 ≤ ps.max_speed) (_hms2 : ps.max_speed ≤ 10)
    (h1 : ¬ (update ps b).position.x < 50)
    (h2 : ¬ (update ps b).position.x > WIDTH - 50)
    (h3 : ¬ (update ps b).position.y < 50)
    (h4 : ¬ (update ps b).position.y > HEIGHT - 50) :
    Vec.norm (update ps b).velocity ≤ ps.max_speed := by
  rw [update, handle_boundaries_interior ps (integrate ps b) h1 h2 h3 h4]
  exact norm_speed_clamp (b.velocity + b.acceleration) ps.max_speed
    (by linarith)

/-- C1, witness for the amended theorem: a boid at `(100, 100)` moving
at speed 3 stays inside the margin bands and keeps `|velocity| ≤ 4`. -/
theorem speed_bound_outside_margin_witness :
    (0.5 ≤ defaultParams.max_speed ∧ defaultParams.max_speed ≤ 10) ∧
      Vec.norm (update defaultParams
        ⟨⟨100, 100⟩, ⟨3, 0⟩, Vec.zero, []⟩).velocity ≤
        defaultParams.max_speed :=
  ⟨⟨by norm_num [defaultParams], by norm_num [defaultParams]⟩,
    speed_bound_outside_margin defaultParams
      ⟨⟨100, 100⟩, ⟨3, 0⟩, Vec.zero, []⟩
      (by norm_num [defaultParams]) (by norm_num [defaultParams])
      (by rw [update_evalW]; norm_num)
      (by rw [update_evalW]; norm_num [WIDTH])
      (by rw [update_evalW]; norm_num)
      (by rw [update_evalW]; norm_num [HEIGHT])⟩

/-- C2, counterexample: one frame of the main loop is not independent of
the agent iteration order.  For the two-boid state `probeA, probeB`,
boid `probeA` ends the frame with velocity `⟨2.94, 0⟩` when processed
first but `⟨3.4, 0⟩` when processed second, because the loop mutates
boids in place and the second `flock` call reads the first boid's
already-updated state. -/
theorem step_order_independence_cex :
    ((stepAll defaultParams [probeA, probeB]).getD 0 default).velocity ≠
      ((stepAll defaultParams [probeB, probeA]).getD 1 default).velocity :=
  order_dependence_core

/-- C2, amended: the frame loop `for boid in boids: boid.flock(boids);
boid.update()` updates agents sequentially in place, so the frame
result depends on the iteration order: there is a two-boid state whose
post-step velocities differ between the two orders. -/
theorem step_order_dependent :
    ∃ (ps : Params) (b0 b1 : Boid),
      ((stepAll ps [b0, b1]).getD 0 default).velocity ≠
        ((stepAll ps [b1, b0]).getD 1 default).velocity :=
  ⟨defaultParams, probeA, probeB, order_dependence_core⟩

/-- C3, counterexample: the `flock` method is not pure: it mutates the
acceleration field of `self` (via `apply_force`), as seen on a concrete
two-boid flock where the acceleration changes from zero to
`⟨-0.486, 0⟩`. -/
theorem flock_pure_cex :
    (flock defaultParams [probeSame, probeSame] 0 probeSame).acceleration ≠
      probeSame.acceleration := by
  rw [flock_same_pos_eval]
  show Vec.mk (-0.486) 0 ≠ probeSame.acceleration
  intro h
  have hx := congrArg Vec.x h
  norm_num [probeSame, Vec.zero] at hx

/-- C3, amended: `flock` never changes the position or the velocity of
`self` (it only writes the neighbor cache and the acceleration
accumulator), and it reads but never writes the other boids: in the
embedding it is a function of the flock list returning only the new
state of `self`. -/
theorem flock_preserves_position_velocity (ps : Params)
    (boids : List Boid) (i : ℕ) (self : Boid) :
    (flock ps boids i self).position = self.position ∧
    (flock ps boids i self).velocity = self.velocity := by
  simp only [flock, apply_force]
  split_ifs <;> exact ⟨rfl, rfl⟩

/-- C4: `normalize` maps the zero vector to the zero vector (no division
by zero), and maps every nonzero vector to a vector of magnitude exactly
1 that is a positive multiple of the input (same direction). -/
theorem normalize_spec :
    normalize Vec.zero = Vec.zero ∧
    ∀ v : Vec, v ≠ Vec.zero →
      Vec.norm (normalize v) = 1 ∧ ∃ c : ℝ, 0 < c ∧ normalize v = c • v :=
  ⟨normalize_zero_vec, fun _ h => ⟨norm_normalize h, normalize_eq_smul h⟩⟩

/-- C4, witness at the nonzero vector `⟨3, 4⟩`. -/
theorem normalize_spec_witness :
    (Vec.mk 3 4 ≠ Vec.zero) ∧
      (Vec.norm (normalize ⟨3, 4⟩) = 1 ∧
        ∃ c : ℝ, 0 < c ∧ normalize ⟨3, 4⟩ = c • ⟨3, 4⟩) := by
  have hne : Vec.mk 3 4 ≠ Vec.zero := by
    intro h
    have hx := congrArg Vec.x h
    norm_num [Vec.zero] at hx
  exact ⟨hne, normalize_spec.2 ⟨3, 4⟩ hne⟩

/-- C5: each of the three sub-forces computed by `flock` has magnitude
at most `0.2` at the point just before its weight is multiplied in,
for every agent, neighbor accumulator and parameter set. -/
theorem force_clamp (ps : Params) (self : Boid) (acc : FlockAcc) :
    Vec.norm (separation_force ps self acc) ≤ 0.2 ∧
    Vec.norm (alignment_force ps self acc) ≤ 0.2 ∧
    Vec.norm (cohesion_force ps self acc) ≤ 0.2 :=
  ⟨norm_limit_le _ (by norm_num), norm_limit_le _ (by norm_num),
    norm_limit_le _ (by norm_num)⟩

/-- C6: an agent never records itself as a neighbor: the scan skips the
entry whose identity (index) equals the agent's own. -/
theorem no_self_neighbor (ps : Params) (boids : List Boid) (i : ℕ)
    (self : Boid) : i ∉ (flock ps boids i self).neighbors := by
  have hn : (flock ps boids i self).neighbors =
      (flockScan ps self i boids).neighbors := by
    simp only [flock, apply_force]
    split_ifs <;> rfl
  rw [hn, flockScan]
  exact foldl_scan_not_self_mem ps self i _ initAcc (List.not_mem_nil i)

/-- C7: one scan iteration contributes to the separation accumulators
exactly when the other boid is a different object and its distance is
below both the perception radius and the separation radius; in
particular a separation radius larger than the perception radius never
makes separation fire beyond the perception radius. -/
theorem separation_coupling (ps : Params) (self : Boid) (i : ℕ)
    (acc : FlockAcc) (j : ℕ) (other : Boid) :
    (scanStep ps self i acc (j, other)).total_separation =
      acc.total_separation +
        (if ¬ j = i ∧
            Vec.norm (self.position - other.position) <
              ps.perception_radius ∧
            Vec.norm (self.position - other.position) <
              ps.separation_radius
          then 1 else 0) ∧
    (scanStep ps self i acc (j, other)).separation =
      (if ¬ j = i ∧
          Vec.norm (self.position - other.position) <
            ps.perception_radius ∧
          Vec.norm (self.position - other.position) <
            ps.separation_radius
        then acc.separation + (self.position - other.position) /
          sep_denom (Vec.norm (self.position - other.position))
        else acc.separation) := by
  simp only [scanStep]
  split_ifs <;> simp_all

/-- C8: the separation denominator `distance² + 1e-5` is positive for
every distance, so two agents at the same position (distance 0) cause
no division by zero; on a concrete flock of two coincident agents the
steering force is the well-defined vector `⟨-0.486, 0⟩`. -/
theorem separation_zero_distance_safe :
    (∀ d : ℝ, 0 < sep_denom d) ∧
      (flock defaultParams [probeSame, probeSame] 0
        probeSame).acceleration = ⟨-0.486, 0⟩ := by
  constructor
  · intro d
    rw [sep_denom]
    nlinarith [mul_self_nonneg d]
  · rw [flock_same_pos_eval]

/-- C9: one boundary-handling pass adds `edge_force` to `velocity.x`
when `position.x < 50`, subtracts it when `position.x > WIDTH - 50`, and
symmetrically for `y` against `HEIGHT`; the position is never changed.
In particular a boid at `x = 10` with the default `edge_force = 7.25`
gains exactly `+7.25` on `velocity.x`. -/
theorem boundary_nudge :
    (∀ (ps : Params) (b : Boid),
      (handle_boundaries ps b).position = b.position ∧
      (handle_boundaries ps b).velocity.x =
        b.velocity.x + (if b.position.x < 50 then ps.edge_force else 0) -
          (if b.position.x > WIDTH - 50 then ps.edge_force else 0) ∧
      (handle_boundaries ps b).velocity.y =
        b.velocity.y + (if b.position.y < 50 then ps.edge_force else 0) -
          (if b.position.y > HEIGHT - 50 then ps.edge_force else 0)) ∧
    (handle_boundaries defaultParams
      ⟨⟨10, 100⟩, ⟨0, 0⟩, Vec.zero, []⟩).velocity.x = 0 + 7.25 := by
  constructor
  · intro ps b
    refine ⟨rfl, ?_, ?_⟩ <;>
    · simp only [handle_boundaries]
      split_ifs <;> ring
  · simp only [handle_boundaries]
    rw [if_neg (by norm_num [WIDTH] : ¬ ((10 : ℝ) > WIDTH - 50)),
      if_pos (by norm_num : ((10 : ℝ) < 50))]
    norm_num [defaultParams]

/-- C10: the clamp `limit v m` (for positive `m`) never increases the
magnitude, returns `v` unchanged when `|v| ≤ m`, rescales to magnitude
exactly `m` in the same direction when `|v| > m`, and is idempotent. -/
theorem limit_spec (v : Vec) (m : ℝ) (hm : 0 < m) :
    Vec.norm (limit v m) ≤ Vec.norm v ∧
    (Vec.norm v ≤ m → limit v m = v) ∧
    (Vec.norm v > m →
      Vec.norm (limit v m) = m ∧ ∃ c : ℝ, 0 < c ∧ limit v m = c • v) ∧
    limit (limit v m) m = limit v m := by
  refine ⟨?_, ?_, ?_, ?_⟩
  · by_cases hgt : Vec.norm v > m
    · rw [norm_limit_of_gt hm.le hgt]
      exact hgt.le
    · rw [limit, if_neg hgt]
  · intro h
    rw [limit, if_neg (not_lt.mpr h)]
  · intro hgt
    have hp : 0 < Vec.norm v := lt_of_le_of_lt hm.le hgt
    refine ⟨norm_limit_of_gt hm.le hgt, m / Vec.norm v,
      div_pos hm hp, ?_⟩
    rw [limit, if_pos hgt, Vec.div_mul_eq_smul]
  · have hle := norm_limit_le v hm.le
    nth_rewrite 1 [limit]
    rw [if_neg (not_lt.mpr hle)]

/-- C10, witness at `v = ⟨3, 4⟩`, `m = 1`. -/
theorem limit_spec_witness :
    (0 : ℝ) < 1 ∧
      (Vec.norm (limit ⟨3, 4⟩ 1) ≤ Vec.norm ⟨3, 4⟩ ∧
        (Vec.norm ⟨3, 4⟩ ≤ 1 → limit ⟨3, 4⟩ 1 = ⟨3, 4⟩) ∧
        (Vec.norm ⟨3, 4⟩ > 1 →
          Vec.norm (limit ⟨3, 4⟩ 1) = 1 ∧
            ∃ c : ℝ, 0 < c ∧ limit ⟨3, 4⟩ 1 = c • ⟨3, 4⟩) ∧
        limit (limit ⟨3, 4⟩ 1) 1 = limit ⟨3, 4⟩ 1) :=
  ⟨by norm_num, limit_spec ⟨3, 4⟩ 1 (by norm_num)⟩

end

end Boids
